/-
Verification of the diffing / reconciliation core of the `tools-check-diff`
repository (a dev-vs-prod web page comparison tool).

The relevant TypeScript sources are shallowly embedded as executable Lean
definitions:

  * `src/src/components/URLInputForm.tsx` — `generateHTMLDiff`,
    `generateSideBySideDiff` (the line differ and side-by-side aligner);
  * `src/src/components/ResourceTracker.tsx` — `getNormalizedPath`,
    `getPathWithParams`, the per-category resource partition in
    `renderCategoryDetails`, `buildFolderTree`, `hasContentDifference`;
  * `src/src/components/DOMCompare.tsx` — `renderTagDetails`;
  * `src/src/utils/alertSystem.ts` — the `AlertSystem` checks and
    `DEFAULT_THRESHOLDS`.

JavaScript strings are embedded as Lean `String`, JS numbers as `ℚ`
(exact rationals; the sources perform no floating point rounding relevant
to the verified properties), optional fields as `Option`, and JS arrays as
`List`.  All computation is written with structurally recursive list
functions so that concrete runs reduce inside the kernel.
-/
import Mathlib

namespace ToolsCheckDiff

/-! ## String utilities

The TypeScript uses `String.prototype.split`, `indexOf`, `substring`,
`startsWith`, `toLowerCase` and `trim`.  They are embedded here over
`List Char` (all inputs of interest are ASCII, where JS UTF-16 code-unit
indices agree with character indices). -/

/-- JS `s.split(sep)` for a single-character separator: `List.splitOn` on
the character list. -/
def jsSplitChar (sep : Char) (s : String) : List String :=
  (s.toList.splitOn sep).map (fun l => ⟨l⟩)

/-- JS `s.split(sep)[0]`: everything before the first occurrence of the
separator character (the whole string if the separator is absent). -/
def takeBeforeChar (sep : Char) (s : String) : String :=
  ⟨s.toList.takeWhile (fun c => c ≠ sep)⟩

/-- Auxiliary for `strIndexOf`: first index `≥ i` at which `pat` occurs in
`s`, scanning left to right. -/
def strIndexOfAux (pat : List Char) : List Char → Nat → Option Nat
  | [], i => if pat = [] then some i else none
  | c :: rest, i =>
    if pat.isPrefixOf (c :: rest) then some i else strIndexOfAux pat rest (i + 1)

/-- JS `s.indexOf(pat)`, returning `none` for `-1`. -/
def strIndexOf (s pat : String) : Option Nat :=
  strIndexOfAux pat.toList s.toList 0

/-- JS `s.substring(i)`. -/
def strDrop (s : String) (i : Nat) : String :=
  ⟨s.toList.drop i⟩

/-- JS `s.startsWith(p)`. -/
def strStarts (s p : String) : Bool :=
  p.toList.isPrefixOf s.toList

/-- JS `s.toLowerCase()` (ASCII). -/
def lowerStr (s : String) : String :=
  ⟨s.toList.map Char.toLower⟩

/-- Truthiness of JS `line.trim()`: true iff the line has at least one
non-whitespace character. -/
def jsTruthyTrim (l : String) : Bool :=
  l.toList.any (fun c => !c.isWhitespace)

/-- Splitting a text into lines: JS `text.split('\n')`. -/
def splitLines (s : String) : List String :=
  jsSplitChar '\n' s

/-- Joining lines back with newlines (the inverse of `splitLines`). -/
def joinLines (ls : List String) : String :=
  ⟨['\n'].intercalate (ls.map String.toList)⟩

/-! ## Line Differ

Modelled from the spec: the repository's line differ is `Diff.diffLines`
from the external `diff` (jsdiff) npm package, whose source is not part of
the repository.  Spec §4.1 describes it as "a standard
longest-common-subsequence-based line diff" producing a segment sequence
`{op: equal|insert|delete, lines: [string]}` in document order.  We embed
it as: compute a longest common subsequence of the two line lists, then
emit delete / insert / equal segments around the common lines. -/

inductive DiffOp where
  | equal
  | delete
  | insert
deriving DecidableEq, Repr

/-- One segment of the line diff: an operation together with the lines it
covers (the jsdiff part's `value` is the newline-join of these lines, and
`value.split('\n')` recovers them). -/
structure Seg (α : Type) where
  op : DiffOp
  lines : List α
deriving DecidableEq, Repr

/-- Longest common subsequence with explicit structural fuel (so that the
kernel can evaluate it); `fuel ≥ a.length + b.length` suffices. -/
def lcsFuel [DecidableEq α] : Nat → List α → List α → List α
  | 0, _, _ => []
  | _ + 1, [], _ => []
  | _ + 1, _ :: _, [] => []
  | fuel + 1, a :: as, b :: bs =>
    if a = b then
      a :: lcsFuel fuel as bs
    else
      let l1 := lcsFuel fuel as (b :: bs)
      let l2 := lcsFuel fuel (a :: as) bs
      if l2.length ≤ l1.length then l1 else l2

/-- Longest common subsequence of two lists. -/
def lcs [DecidableEq α] (a b : List α) : List α :=
  lcsFuel (a.length + b.length) a b

/-- Emit the diff segments of `a` versus `b` around a common subsequence
`c`: deletions from `a` and insertions from `b` up to each common element,
then an equal segment. -/
def diffFromLCS [DecidableEq α] : List α → List α → List α → List (Seg α)
  | a, b, [] =>
    (if a.isEmpty then [] else [⟨.delete, a⟩]) ++
      (if b.isEmpty then [] else [⟨.insert, b⟩])
  | a, b, x :: c =>
    let pa := a.takeWhile (fun y => !(y == x))
    let ra := (a.dropWhile (fun y => !(y == x))).tail
    let pb := b.takeWhile (fun y => !(y == x))
    let rb := (b.dropWhile (fun y => !(y == x))).tail
    (if pa.isEmpty then [] else [⟨.delete, pa⟩]) ++
      (if pb.isEmpty then [] else [⟨.insert, pb⟩]) ++
      ⟨.equal, [x]⟩ :: diffFromLCS ra rb c

/-- Modelled from the spec: `Diff.diffLines(oldStr, newStr)` (jsdiff), an
LCS-based line diff over the newline-split line lists (spec §4.1). -/
def diffLines (oldStr newStr : String) : List (Seg String) :=
  let la := splitLines oldStr
  let lb := splitLines newStr
  diffFromLCS la lb (lcs la lb)

/-- The lines of the old text recovered from a segment list: lines of the
`equal` and `delete` segments, in order. -/
def reconOld (segs : List (Seg α)) : List α :=
  (segs.filter (fun s => !(s.op == DiffOp.insert))).flatMap Seg.lines

/-- The lines of the new text recovered from a segment list: lines of the
`equal` and `insert` segments, in order. -/
def reconNew (segs : List (Seg α)) : List α :=
  (segs.filter (fun s => !(s.op == DiffOp.delete))).flatMap Seg.lines

/-- Embeds `const lines = part.value.split('\n').filter(line => line.trim())`
(URLInputForm.tsx related module, lines 99 and 126): the segment's lines
with whitespace-only lines removed.  (jsdiff's `part.value` is the
newline-join of the part's lines, possibly with a trailing newline; the
split recovers the lines plus possibly one final empty string, which the
`trim` filter removes either way.) -/
def partFilteredLines (p : Seg String) : List String :=
  p.lines.filter jsTruthyTrim

/-- Result shape of `generateHTMLDiff` (URLInputForm.tsx related module,
lines 91-96). -/
structure HTMLDiffResult where
  added : List String
  removed : List String
  modified : List String
  all : List (Seg String)
deriving DecidableEq, Repr

/-- `generateHTMLDiff` (URLInputForm.tsx related module, lines 88-109):
runs the line differ, collects the non-blank lines of added parts into
`added` and of removed parts into `removed`, and exposes the raw segment
list as `all`. -/
def generateHTMLDiff (html1 html2 : String) : HTMLDiffResult :=
  let diff := diffLines html1 html2
  { added := (diff.filter (fun p => p.op == DiffOp.insert)).flatMap partFilteredLines
    removed := (diff.filter (fun p => p.op == DiffOp.delete)).flatMap partFilteredLines
    modified := []
    all := diff }

/-! ### Round-trip lemmas for the line differ -/

/-! ## Side-by-Side Aligner

`generateSideBySideDiff` (URLInputForm.tsx related module, lines 111-168):
walks the diff segments and emits aligned two-column rows, filtering out
whitespace-only lines, with running per-side line counters starting at 1. -/

inductive ProdCellType where
  | normal
  | removed
  | empty
deriving DecidableEq, Repr

inductive DevCellType where
  | normal
  | added
  | empty
deriving DecidableEq, Repr

/-- One aligned row (the element type of `generateSideBySideDiff`'s
result array, lines 113-120). -/
structure SideRow where
  prodLineNum : Option Nat
  prodContent : String
  prodType : ProdCellType
  devLineNum : Option Nat
  devContent : String
  devType : DevCellType
deriving DecidableEq, Repr

/-- Rows emitted for an unchanged part (lines 128-139): both columns
populated, both counters advancing. -/
def equalRows : Nat → Nat → List String → List SideRow
  | _, _, [] => []
  | p, d, l :: ls =>
    ⟨some p, l, ProdCellType.normal, some d, l, DevCellType.normal⟩ ::
      equalRows (p + 1) (d + 1) ls

/-- Rows emitted for a removed part (lines 140-151): right column empty,
only the prod counter advances. -/
def removedRows : Nat → List String → List SideRow
  | _, [] => []
  | p, l :: ls =>
    ⟨some p, l, ProdCellType.removed, none, "", DevCellType.empty⟩ ::
      removedRows (p + 1) ls

/-- Rows emitted for an added part (lines 152-163): left column empty,
only the dev counter advances. -/
def addedRows : Nat → List String → List SideRow
  | _, [] => []
  | d, l :: ls =>
    ⟨none, "", ProdCellType.empty, some d, l, DevCellType.added⟩ ::
      addedRows (d + 1) ls

/-- The segment walk of `generateSideBySideDiff` (lines 125-165), with the
two running line counters as explicit state. -/
def alignSegs : Nat → Nat → List (Seg String) → List SideRow
  | _, _, [] => []
  | p, d, seg :: rest =>
    let lines := partFilteredLines seg
    match seg.op with
    | DiffOp.equal =>
      equalRows p d lines ++ alignSegs (p + lines.length) (d + lines.length) rest
    | DiffOp.delete =>
      removedRows p lines ++ alignSegs (p + lines.length) d rest
    | DiffOp.insert =>
      addedRows d lines ++ alignSegs p (d + lines.length) rest

/-- `generateSideBySideDiff` (lines 111-168). -/
def generateSideBySideDiff (html1 html2 : String) : List SideRow :=
  alignSegs 1 1 (diffLines html1 html2)

/-- Total number of lines covered by a segment list (before the blank-line
filter). -/
def totalSegLines (segs : List (Seg String)) : Nat :=
  (segs.map (fun s => s.lines.length)).sum

/-- Number of rows whose prod column has content. -/
def prodFilledCount (rows : List SideRow) : Nat :=
  (rows.filter (fun r => !(r.prodType == ProdCellType.empty))).length

/-- Number of rows whose dev column has content. -/
def devFilledCount (rows : List SideRow) : Nat :=
  (rows.filter (fun r => !(r.devType == DevCellType.empty))).length

/-- Well-numbered rows: `prodLineNum` is `none` exactly on prod-empty rows
and dev symmetrically. -/
def rowNumsMatchTypes (r : SideRow) : Prop :=
  (r.prodLineNum = none ↔ r.prodType = ProdCellType.empty) ∧
    (r.devLineNum = none ↔ r.devType = DevCellType.empty)

/-! ## URL parsing

Modelled from the spec: `new URL(...)`, `url.pathname`, `url.search`,
`url.hostname` are the browser's WHATWG URL API, not repository code.  The
embedding accepts absolute URLs of the shape
`scheme "://" host [path] ["?" query] ["#" fragment]` with a nonempty
alphanumeric scheme starting with a letter and a nonempty host, and fails
(`none`, the JS `TypeError`) otherwise; the pathname defaults to "/" and
`search` is empty or starts with '?', as in the platform API.
Platform-level normalizations that the verified properties do not depend
on (percent-encoding, dot-segment removal, host case-folding, ports) are
not modelled. -/

structure URLParts where
  scheme : String
  host : String
  pathname : String
  search : String
  fragment : String
deriving DecidableEq, Repr

/-- Character class allowed in a scheme after the first letter. -/
def schemeTailChar (c : Char) : Bool :=
  c.isAlphanum || c == '+' || c == '-' || c == '.'

/-- Is this a well-formed scheme? -/
def validScheme (cs : List Char) : Bool :=
  match cs with
  | [] => false
  | c :: rest => c.isAlpha && rest.all schemeTailChar

/-- Modelled from the spec: the WHATWG `new URL(s)` constructor (platform
API, not repository code), simplified as described above. -/
def parseURL (s : String) : Option URLParts :=
  match strIndexOf s "://" with
  | none => none
  | some i =>
    let cs := s.toList
    let scheme := cs.take i
    if !validScheme scheme then none
    else
      let rest := cs.drop (i + 3)
      let host := rest.takeWhile (fun c => c ≠ '/' && c ≠ '?' && c ≠ '#')
      if host.isEmpty then none
      else
        let afterHost := rest.drop host.length
        let pathPart := afterHost.takeWhile (fun c => c ≠ '?' && c ≠ '#')
        let afterPath := afterHost.drop pathPart.length
        let query := (afterPath.takeWhile (fun c => c ≠ '#')).drop 1
        let frag := afterPath.drop ((afterPath.takeWhile (fun c => c ≠ '#')).length)
        some
          { scheme := ⟨scheme⟩
            host := ⟨host⟩
            pathname := if pathPart.isEmpty then "/" else ⟨pathPart⟩
            search := if query.isEmpty then "" else ⟨'?' :: query⟩
            fragment := ⟨frag⟩ }

/-- The `/static` marker truncation used by both key helpers
(ResourceTracker.tsx lines 389-392, 400-403, 416-419, 432-435):
`path.indexOf('/static')` followed by `path.substring(staticIndex)`. -/
def staticTrunc (path : String) : String :=
  match strIndexOf path "/static" with
  | some i => strDrop path i
  | none => path

/-- JS `url.replace(/^https?:\/\/[^/]+/, '')` (ResourceTracker.tsx lines
397 and 429): strips a leading `http://` or `https://` plus a nonempty run
of non-'/' host characters; leaves the string unchanged when the pattern
does not match. -/
def stripProtocolHost (s : String) : String :=
  let tryStrip := fun (p : String) =>
    if strStarts s p then
      let rest := (s.toList.drop p.toList.length)
      let hostLen := (rest.takeWhile (fun c => c ≠ '/')).length
      if hostLen = 0 then none else some (⟨rest.drop hostLen⟩ : String)
    else none
  match tryStrip "https://" with
  | some r => r
  | none =>
    match tryStrip "http://" with
    | some r => r
    | none => s

/-- The `catch` branch of `getNormalizedPath` (ResourceTracker.tsx lines
395-406): strip protocol/host, drop query and hash, apply the `/static`
marker. -/
def getNormalizedPathFallback (url : String) : String :=
  let withoutProtocol := stripProtocolHost url
  let pathOnly := takeBeforeChar '#' (takeBeforeChar '?' withoutProtocol)
  staticTrunc pathOnly

/-- `getNormalizedPath` (ResourceTracker.tsx lines 383-407): the
normalized matching key of a resource URL — pathname without query or
hash, truncated at a `/static` marker if present, with a literal-string
fallback when URL parsing fails. -/
def getNormalizedPath (url : String) : String :=
  match parseURL url with
  | some u => staticTrunc u.pathname
  | none => getNormalizedPathFallback url

/-- The `catch` branch of `getPathWithParams` (ResourceTracker.tsx lines
427-437): strip protocol/host, drop only the hash, apply the `/static`
marker. -/
def getPathWithParamsFallback (url : String) : String :=
  let withoutProtocol := stripProtocolHost url
  let pathWithParams := takeBeforeChar '#' withoutProtocol
  staticTrunc pathWithParams

/-- `getPathWithParams` (ResourceTracker.tsx lines 410-439): the
comparison key — the normalized path WITH the query string appended
(fragment still excluded). -/
def getPathWithParams (url : String) : String :=
  match parseURL url with
  | some u =>
    let path := staticTrunc u.pathname
    if u.search ≠ "" then path ++ u.search else path
  | none => getPathWithParamsFallback url

/-! ## Static resources and the Resource Reconciler -/

inductive ResourceType where
  | script
  | stylesheet
  | image
  | font
  | media
  | document
  | other
deriving DecidableEq, Repr

/-- `StaticResource` (src/types.ts is not included in the sources; fields
reconstructed from usage and spec §3).  `content` is `none` when never
fetched — distinct from `some ""`. -/
structure StaticResource where
  url : String
  rtype : ResourceType
  size : Option ℚ := none
  cached : Option Bool := none
  content : Option String := none
  path : Option String := none
  fileName : Option String := none
deriving DecidableEq, Repr

/-- The matching key of a resource in `renderCategoryDetails`:
`getNormalizedPath(item.url)`. -/
def resKey (r : StaticResource) : String :=
  getNormalizedPath r.url

/-- JS `Map.prototype.has` for a map built as
`new Map(items.map(item => [key(item), item]))`: some item has this key. -/
def mapHas (key : StaticResource → String) (items : List StaticResource)
    (k : String) : Bool :=
  items.any (fun i => key i == k)

/-- JS `Map.prototype.get` for the same map: the Map constructor keeps the
LAST entry inserted for a duplicated key. -/
def mapGet (key : StaticResource → String) (items : List StaticResource)
    (k : String) : Option StaticResource :=
  items.reverse.find? (fun i => key i == k)

/-- `devOnlyItems` (ResourceTracker.tsx line 446): dev items whose
normalized key is absent from the prod map. -/
def devOnlyItems (devItems prodItems : List StaticResource) : List StaticResource :=
  devItems.filter (fun item => !(mapHas resKey prodItems (resKey item)))

/-- `prodOnlyItems` (line 447). -/
def prodOnlyItems (devItems prodItems : List StaticResource) : List StaticResource :=
  prodItems.filter (fun item => !(mapHas resKey devItems (resKey item)))

/-- `commonItems` (line 448): dev items whose normalized key is present in
the prod map. -/
def commonItems (devItems prodItems : List StaticResource) : List StaticResource :=
  devItems.filter (fun item => mapHas resKey prodItems (resKey item))

/-- The prod-side counterpart of `commonItems` (prod items whose key is
present in the dev map; computed implicitly by the prod column's
`isUnique` test, line 504). -/
def commonItemsProd (devItems prodItems : List StaticResource) : List StaticResource :=
  prodItems.filter (fun item => mapHas resKey devItems (resKey item))

/-! ## Folder-Tree Builder (`buildFolderTree`, ResourceTracker.tsx lines
581-636) and the content-difference flag (`hasContentDifference`, lines
660-668). -/

inductive NodeType where
  | folder
  | file
deriving DecidableEq, Repr

/-- `FolderNode` (src/types.ts is not included in the sources; shape
reconstructed from usage): `children` is optional (file nodes are created
without it), `resource` is carried by file nodes. -/
inductive FolderNode where
  | mk (name : String) (ntype : NodeType) (path : String)
      (children : Option (List FolderNode)) (resource : Option StaticResource)

def FolderNode.name : FolderNode → String
  | FolderNode.mk n _ _ _ _ => n

def FolderNode.ntype : FolderNode → NodeType
  | FolderNode.mk _ t _ _ _ => t

def FolderNode.path : FolderNode → String
  | FolderNode.mk _ _ p _ _ => p

def FolderNode.children : FolderNode → Option (List FolderNode)
  | FolderNode.mk _ _ _ c _ => c

def FolderNode.resource : FolderNode → Option StaticResource
  | FolderNode.mk _ _ _ _ r => r

/-- `relativePath.join('/')`. -/
def joinPath (parts : List String) : String :=
  String.intercalate "/" parts

mutual

/-- The folder-descent loop of `buildFolderTree` (lines 594-629): walk or
create the folder chain named by `folders` below `node`, then append the
file node for `res` to the final folder's children.  `sofar` is the
accumulated `relativePath`. -/
def insertResource (sofar folders : List String) (fileName : String)
    (res : StaticResource) (node : FolderNode) : FolderNode :=
  match folders, node with
  | [], FolderNode.mk n t pth ch rsrc =>
    let fileNode := FolderNode.mk fileName NodeType.file
      (joinPath (sofar ++ [fileName])) none
      (some { res with fileName := some fileName, path := some (joinPath sofar) })
    FolderNode.mk n t pth (some (ch.getD [] ++ [fileNode])) rsrc
  | part :: restParts, FolderNode.mk n t pth ch rsrc =>
    let children := ch.getD []
    let newChildren :=
      if children.any (fun c => c.name == part && c.ntype == NodeType.folder) then
        insertChild (sofar ++ [part]) restParts fileName res part children
      else
        children ++
          [insertResource (sofar ++ [part]) restParts fileName res
            (FolderNode.mk part NodeType.folder (joinPath (sofar ++ [part]))
              (some []) none)]
    FolderNode.mk n t pth (some newChildren) rsrc
termination_by (folders.length, 0)

/-- Replace the first folder child named `part` by the recursive insert
(the JS code mutates the node found by `children.find(...)` in place). -/
def insertChild (sofar restParts : List String) (fileName : String)
    (res : StaticResource) (part : String) (cs : List FolderNode) :
    List FolderNode :=
  match cs with
  | [] => []
  | c :: rest =>
    if c.name == part && c.ntype == NodeType.folder then
      insertResource sofar restParts fileName res c :: rest
    else
      c :: insertChild sofar restParts fileName res part rest
termination_by (restParts.length, cs.length + 1)

end

/-- The path segments of a parsed resource URL:
`url.pathname.split('/').filter(p => p)` (line 587). -/
def urlPathParts (u : URLParts) : List String :=
  (jsSplitChar '/' u.pathname).filter (fun p => p ≠ "")

/-- The WPS denylist test (line 590):
`pathParts.some(part => part.toLowerCase() === 'wps')`. -/
def wpsSkip (u : URLParts) : Bool :=
  (urlPathParts u).any (fun part => lowerStr part == "wps")

/-- One `resources.forEach` step of `buildFolderTree` (lines 584-633):
parse the URL (the `catch` skips the resource), skip resources whose path
contains a `wps` segment, else insert. -/
def buildStep (root : FolderNode) (resource : StaticResource) : FolderNode :=
  match parseURL resource.url with
  | none => root
  | some u =>
    if wpsSkip u then root
    else
      let pathParts := urlPathParts u
      let folders := pathParts.dropLast
      let fileName :=
        match pathParts.getLast? with
        | some n => n
        | none => u.host
      insertResource [] folders fileName resource root

/-- The initial root node (line 582). -/
def rootNode : FolderNode :=
  FolderNode.mk "root" NodeType.folder "/" (some []) none

/-- `buildFolderTree` (lines 581-636). -/
def buildFolderTree (resources : List StaticResource) : FolderNode :=
  resources.foldl buildStep rootNode

/-- A resource survives tree construction iff its URL parses and its path
has no `wps` segment. -/
def treeKeep (resource : StaticResource) : Bool :=
  match parseURL resource.url with
  | none => false
  | some u => !(wpsSkip u)

/-- `hasContentDifference` (lines 660-668): both nodes present, both file
nodes, and the two contents — with a missing resource or missing `content`
coerced to the empty string by `|| ''` — unequal. -/
def hasContentDifference (devNode prodNode : Option FolderNode) : Bool :=
  match devNode, prodNode with
  | none, _ => false
  | some _, none => false
  | some d, some p =>
    if !(d.ntype == NodeType.file) || !(p.ntype == NodeType.file) then false
    else
      let devContent := (d.resource.bind StaticResource.content).getD ""
      let prodContent := (p.resource.bind StaticResource.content).getD ""
      devContent != prodContent

/-! ## Concrete fixtures used by counterexamples and witnesses -/

def devA1 : StaticResource :=
  { url := "https://dev.site/static/js/app.js?v=1"
    rtype := ResourceType.script
    size := some 500 }

def devA2 : StaticResource :=
  { url := "https://dev.site/static/js/app.js?v=2"
    rtype := ResourceType.script
    size := some 600 }

def prodA : StaticResource :=
  { url := "https://prod.site/static/js/app.js"
    rtype := ResourceType.script
    size := some 520 }

def badURLRes : StaticResource :=
  { url := "notaurl#frag"
    rtype := ResourceType.script
    content := some "x" }

def c2DevNode : FolderNode :=
  FolderNode.mk "app.js" NodeType.file "static/js/app.js" none
    (some { url := "https://dev.site/static/js/app.js"
            rtype := ResourceType.script
            content := none })

def c2ProdNode : FolderNode :=
  FolderNode.mk "app.js" NodeType.file "static/js/app.js" none
    (some { url := "https://prod.site/static/js/app.js"
            rtype := ResourceType.script
            content := some "console.log(1)" })

/-! ## C2: folder-tree content-difference flag -/

/-! ## C7: per-category resource partition -/

/-! ## C4: duplicate normalized keys within one side -/

/-! ## C5: unparseable URLs -/

/-! ## C8: normalized-key properties -/

/-! ## Tag-Detail Reconciler (`renderTagDetails`, DOMCompare.tsx lines
86-117) -/

/-- `TagDetail` (src/types.ts is not included in the sources; fields
reconstructed from usage in DOMCompare.tsx).  Absent attributes are `none`,
distinct from present-but-empty. -/
structure TagDetail where
  src : Option String := none
  href : Option String := none
  text : Option String := none
  alt : Option String := none
  content : Option String := none
  attributes : List (String × String) := []
deriving DecidableEq, Repr

/-- One serialized field of `JSON.stringify` (present fields only). -/
def jsonField (name : String) : Option String → List String
  | none => []
  | some v => ["\u0022" ++ name ++ "\u0022:\u0022" ++ v ++ "\u0022"]

/-- The canonical key `JSON.stringify(detail)` (lines 92-93, 97, 105):
a deterministic serialization of all present fields in insertion order. -/
def jsonKey (d : TagDetail) : String :=
  "\x7b" ++
    String.intercalate ","
      (jsonField "src" d.src ++ jsonField "href" d.href ++
        jsonField "text" d.text ++ jsonField "alt" d.alt ++
        jsonField "content" d.content ++
        d.attributes.map
          (fun kv => "\u0022" ++ kv.1 ++ "\u0022:\u0022" ++ kv.2 ++ "\u0022")) ++
    "\x7d"

/-- `devOnly` (lines 96-101): dev details whose key is absent from the
prod key map. -/
def devOnlyTags (devDetails prodDetails : List TagDetail) : List TagDetail :=
  devDetails.filter (fun d => !(prodDetails.any (fun p => jsonKey p == jsonKey d)))

/-- `prodOnly` (lines 104-109). -/
def prodOnlyTags (devDetails prodDetails : List TagDetail) : List TagDetail :=
  prodDetails.filter (fun d => !(devDetails.any (fun p => jsonKey p == jsonKey d)))

/-- The dev details whose key IS present in prod (the complement of
`devOnly` inside the dev list). -/
def matchedTags (devDetails prodDetails : List TagDetail) : List TagDetail :=
  devDetails.filter (fun d => prodDetails.any (fun p => jsonKey p == jsonKey d))

/-- The prod details whose key IS present in dev. -/
def matchedTagsProd (devDetails prodDetails : List TagDetail) : List TagDetail :=
  prodDetails.filter (fun d => devDetails.any (fun p => jsonKey p == jsonKey d))

/-- `common` (lines 111-117): the positional loop
`for i in 0..max(len)-1: if (devDetails[i] && prodDetails[i]) push pair`.
(Array elements are records, hence always truthy when present.) -/
def commonTags (devDetails prodDetails : List TagDetail) :
    List (TagDetail × TagDetail) :=
  (List.range (max devDetails.length prodDetails.length)).filterMap
    (fun i =>
      match devDetails[i]?, prodDetails[i]? with
      | some a, some b => some (a, b)
      | _, _ => none)

/-! ## Threshold Alert Engine (`AlertSystem`, src/src/utils/alertSystem.ts)

The mutable `this.alerts` array is embedded by explicit state passing:
each check takes the accumulated list and returns the (possibly extended)
list; `push` is append at the end.  JS numbers are embedded as `ℚ`;
display-only number formatting (`toFixed`, `formatBytes`) is abstracted to
`toString`.  The JS guard `if (!this.thresholds.f) return` is falsy for an
absent field and for 0. -/

inductive AlertType where
  | error
  | warning
  | info
deriving DecidableEq, Repr

/-- `AlertRule` (alertSystem.ts lines 8-14). -/
structure AlertRule where
  type : AlertType
  category : String
  message : String
  threshold : Option ℚ := none
  actualValue : Option ℚ := none
deriving DecidableEq, Repr

/-- `ComparisonThreshold` (src/types.ts is not included in the sources;
fields from usage in alertSystem.ts).  Absent fields disable their rule. -/
structure ComparisonThreshold where
  htmlSizeDiff : Option ℚ := none
  scriptCountDiff : Option ℚ := none
  imageCountDiff : Option ℚ := none
  performanceScoreDiff : Option ℚ := none
  seoScoreDiff : Option ℚ := none
  brokenLinksMax : Option ℚ := none
  lighthousePerformanceMin : Option ℚ := none
deriving DecidableEq, Repr

/-- `checkHTMLSize` (lines 27-41): guard `!htmlSizeDiff` (absent or 0),
then warn when the absolute percentage delta exceeds the threshold. -/
def checkHTMLSize (th : ComparisonThreshold) (devSize prodSize : ℚ)
    (alerts : List AlertRule) : List AlertRule :=
  match th.htmlSizeDiff with
  | none => alerts
  | some t =>
    if t == 0 then alerts
    else
      let diffPercent := |((prodSize - devSize) / devSize) * 100|
      if diffPercent > t then
        alerts ++
          [{ type := AlertType.warning
             category := "Performance"
             message := "HTML size increased by " ++ toString diffPercent ++ "%"
             threshold := some t
             actualValue := some diffPercent }]
      else alerts

/-- `checkScriptCount` (lines 46-60). -/
def checkScriptCount (th : ComparisonThreshold) (devCount prodCount : ℚ)
    (alerts : List AlertRule) : List AlertRule :=
  match th.scriptCountDiff with
  | none => alerts
  | some t =>
    if t == 0 then alerts
    else
      let diff := prodCount - devCount
      if |diff| > t then
        alerts ++
          [{ type := if diff > 0 then AlertType.warning else AlertType.info
             category := "DOM"
             message := "Script count " ++
               (if diff > 0 then "increased" else "decreased") ++
               " by " ++ toString |diff|
             threshold := some t
             actualValue := some |diff| }]
      else alerts

/-- `checkImageCount` (lines 65-79). -/
def checkImageCount (th : ComparisonThreshold) (devCount prodCount : ℚ)
    (alerts : List AlertRule) : List AlertRule :=
  match th.imageCountDiff with
  | none => alerts
  | some t =>
    if t == 0 then alerts
    else
      let diff := prodCount - devCount
      if |diff| > t then
        alerts ++
          [{ type := if diff > 0 then AlertType.warning else AlertType.info
             category := "DOM"
             message := "Image count " ++
               (if diff > 0 then "increased" else "decreased") ++
               " by " ++ toString |diff|
             threshold := some t
             actualValue := some |diff| }]
      else alerts

/-- `checkPerformanceScore` (lines 84-98): regression-only (`dev - prod`
must exceed the threshold). -/
def checkPerformanceScore (th : ComparisonThreshold) (devScore prodScore : ℚ)
    (alerts : List AlertRule) : List AlertRule :=
  match th.performanceScoreDiff with
  | none => alerts
  | some t =>
    if t == 0 then alerts
    else
      let diff := devScore - prodScore
      if diff > t then
        alerts ++
          [{ type := AlertType.error
             category := "Performance"
             message := "Performance score decreased by " ++ toString diff ++ " points"
             threshold := some t
             actualValue := some diff }]
      else alerts

/-- `checkSEOScore` (lines 103-117). -/
def checkSEOScore (th : ComparisonThreshold) (devScore prodScore : ℚ)
    (alerts : List AlertRule) : List AlertRule :=
  match th.seoScoreDiff with
  | none => alerts
  | some t =>
    if t == 0 then alerts
    else
      let diff := devScore - prodScore
      if diff > t then
        alerts ++
          [{ type := AlertType.error
             category := "SEO"
             message := "SEO score decreased by " ++ toString diff ++ " points"
             threshold := some t
             actualValue := some diff }]
      else alerts

/-- `checkBrokenLinks` (lines 122-134): the guard is
`=== undefined` — unlike the other checks a threshold of 0 keeps the rule
ACTIVE. -/
def checkBrokenLinks (th : ComparisonThreshold) (brokenCount : ℚ)
    (alerts : List AlertRule) : List AlertRule :=
  match th.brokenLinksMax with
  | none => alerts
  | some t =>
    if brokenCount > t then
      alerts ++
        [{ type := AlertType.error
           category := "Links"
           message := "Found " ++ toString brokenCount ++
             " broken link(s) (max allowed: " ++ toString t ++ ")"
           threshold := some t
           actualValue := some brokenCount }]
    else alerts

/-- `checkLighthousePerformance` (lines 139-151). -/
def checkLighthousePerformance (th : ComparisonThreshold) (score : ℚ)
    (alerts : List AlertRule) : List AlertRule :=
  match th.lighthousePerformanceMin with
  | none => alerts
  | some t =>
    if t == 0 then alerts
    else
      if score < t then
        alerts ++
          [{ type := AlertType.error
             category := "Performance"
             message := "Lighthouse performance score (" ++ toString score ++
               ") is below minimum (" ++ toString t ++ ")"
             threshold := some t
             actualValue := some score }]
      else alerts

/-- `DEFAULT_THRESHOLDS` (lines 300-308). -/
def DEFAULT_THRESHOLDS : ComparisonThreshold :=
  { htmlSizeDiff := some 20
    scriptCountDiff := some 5
    imageCountDiff := some 10
    performanceScoreDiff := some 10
    seoScoreDiff := some 5
    brokenLinksMax := some 0
    lighthousePerformanceMin := some 80 }

/-- `STRICT_THRESHOLDS` (lines 313-321). -/
def STRICT_THRESHOLDS : ComparisonThreshold :=
  { htmlSizeDiff := some 10
    scriptCountDiff := some 2
    imageCountDiff := some 5
    performanceScoreDiff := some 5
    seoScoreDiff := some 2
    brokenLinksMax := some 0
    lighthousePerformanceMin := some 90 }

/-- A configuration with every threshold field set to 0. -/
def zeroThresholds : ComparisonThreshold :=
  { htmlSizeDiff := some 0
    scriptCountDiff := some 0
    imageCountDiff := some 0
    performanceScoreDiff := some 0
    seoScoreDiff := some 0
    brokenLinksMax := some 0
    lighthousePerformanceMin := some 0 }

/-! ## Additional witnesses at concrete inputs -/

def tagT1 : TagDetail := { src := some "a.js" }

def tagT2 : TagDetail := { src := some "b.js" }

/-! ## Theorems -/

theorem splitLines_ne_nil (s : String) : splitLines s ≠ [] := by
  have h := List.splitOnP_ne_nil (fun c => c == '\n') s.toList
  simp only [splitLines, jsSplitChar, List.splitOn, ne_eq, List.map_eq_nil_iff]
  exact h

theorem joinLines_splitLines (s : String) : joinLines (splitLines s) = s := by
  simp only [joinLines, splitLines, jsSplitChar, List.map_map]
  have hcomp : (String.toList ∘ fun l : List Char => (⟨l⟩ : String)) = id := by
    funext l
    rfl
  rw [hcomp, List.map_id, List.intercalate_splitOn]
  cases s
  rfl

theorem lcsFuel_sublist_left [DecidableEq α] :
    ∀ (fuel : Nat) (a b : List α), List.Sublist (lcsFuel fuel a b) a := by
  intro fuel
  induction fuel with
  | zero => intro a b; simp [lcsFuel]
  | succ f ih =>
    intro a b
    match a, b with
    | [], _ => simp [lcsFuel]
    | _ :: _, [] => simp [lcsFuel]
    | a :: as, b :: bs =>
      simp only [lcsFuel]
      split
      · next h =>
        subst h
        exact List.cons_sublist_cons.mpr (ih as bs)
      · split
        · exact List.Sublist.cons _ (ih as (b :: bs))
        · exact ih (a :: as) bs

theorem lcsFuel_sublist_right [DecidableEq α] :
    ∀ (fuel : Nat) (a b : List α), List.Sublist (lcsFuel fuel a b) b := by
  intro fuel
  induction fuel with
  | zero => intro a b; simp [lcsFuel]
  | succ f ih =>
    intro a b
    match a, b with
    | [], _ => simp [lcsFuel]
    | _ :: _, [] => simp [lcsFuel]
    | a :: as, b :: bs =>
      simp only [lcsFuel]
      split
      · next h =>
        subst h
        exact List.cons_sublist_cons.mpr (ih as bs)
      · split
        · exact ih as (b :: bs)
        · exact List.Sublist.cons _ (ih (a :: as) bs)

theorem lcs_sublist_left [DecidableEq α] (a b : List α) : List.Sublist (lcs a b) a :=
  lcsFuel_sublist_left _ a b

theorem lcs_sublist_right [DecidableEq α] (a b : List α) : List.Sublist (lcs a b) b :=
  lcsFuel_sublist_right _ a b

theorem takeWhile_dropWhile_eq [DecidableEq α] (x : α) :
    ∀ (a : List α), x ∈ a →
      (a.takeWhile fun y => !(y == x)) ++
        x :: ((a.dropWhile fun y => !(y == x)).tail) = a := by
  intro a
  induction a with
  | nil => intro h; cases h
  | cons y as ih =>
    intro h
    by_cases hyx : y = x
    · subst hyx
      simp [List.takeWhile_cons, List.dropWhile_cons]
    · have hx : x ∈ as := by
        rcases List.mem_cons.mp h with h1 | h2
        · exact absurd h1.symm hyx
        · exact h2
      have hbeq : (y == x) = false := beq_eq_false_iff_ne.mpr hyx
      simp [List.takeWhile_cons, List.dropWhile_cons, hbeq, ih hx]

theorem sublist_tail_dropWhile [DecidableEq α] (x : α) :
    ∀ (c a : List α), List.Sublist (x :: c) a →
      List.Sublist c ((a.dropWhile fun y => !(y == x)).tail) := by
  intro c a
  induction a with
  | nil => intro h; exact absurd h (by simp)
  | cons y as ih =>
    intro h
    by_cases hyx : y = x
    · subst hyx
      have h' : List.Sublist c as := List.cons_sublist_cons.mp h
      simpa [List.dropWhile_cons] using h'
    · have h' : List.Sublist (x :: c) as := by
        cases h with
        | cons _ htl => exact htl
        | cons₂ _ htl => exact absurd rfl hyx
      have hbeq : (y == x) = false := beq_eq_false_iff_ne.mpr hyx
      simpa [List.dropWhile_cons, hbeq] using ih h'

theorem reconOld_append (s t : List (Seg α)) :
    reconOld (s ++ t) = reconOld s ++ reconOld t := by
  simp [reconOld, List.filter_append]

theorem reconNew_append (s t : List (Seg α)) :
    reconNew (s ++ t) = reconNew s ++ reconNew t := by
  simp [reconNew, List.filter_append]

theorem reconOld_cons (op : DiffOp) (ls : List α) (t : List (Seg α)) :
    reconOld (⟨op, ls⟩ :: t) =
      (if op = DiffOp.insert then reconOld t else ls ++ reconOld t) := by
  cases op <;> simp [reconOld, List.filter_cons]

theorem reconNew_cons (op : DiffOp) (ls : List α) (t : List (Seg α)) :
    reconNew (⟨op, ls⟩ :: t) =
      (if op = DiffOp.delete then reconNew t else ls ++ reconNew t) := by
  cases op <;> simp [reconNew, List.filter_cons]

theorem reconOld_delOpt (pa : List α) :
    reconOld (if pa.isEmpty then [] else [⟨DiffOp.delete, pa⟩]) = pa := by
  by_cases h : pa.isEmpty = true
  · rw [if_pos h]
    simp [reconOld, List.isEmpty_iff.mp h]
  · rw [if_neg h]
    simp [reconOld]

theorem reconOld_insOpt (pb : List α) :
    reconOld (if pb.isEmpty then [] else [⟨DiffOp.insert, pb⟩]) = [] := by
  by_cases h : pb.isEmpty = true
  · rw [if_pos h]
    rfl
  · rw [if_neg h]
    simp [reconOld]

theorem reconNew_insOpt (pb : List α) :
    reconNew (if pb.isEmpty then [] else [⟨DiffOp.insert, pb⟩]) = pb := by
  by_cases h : pb.isEmpty = true
  · rw [if_pos h]
    simp [reconNew, List.isEmpty_iff.mp h]
  · rw [if_neg h]
    simp [reconNew]

theorem reconNew_delOpt (pa : List α) :
    reconNew (if pa.isEmpty then [] else [⟨DiffOp.delete, pa⟩]) = [] := by
  by_cases h : pa.isEmpty = true
  · rw [if_pos h]
    rfl
  · rw [if_neg h]
    simp [reconNew]

theorem reconOld_diffFromLCS [DecidableEq α] :
    ∀ (c a b : List α), List.Sublist c a → reconOld (diffFromLCS a b c) = a := by
  intro c
  induction c with
  | nil =>
    intro a b _
    simp only [diffFromLCS]
    rw [reconOld_append, reconOld_delOpt, reconOld_insOpt, List.append_nil]
  | cons x c ih =>
    intro a b h
    have hmem : x ∈ a := h.subset (List.mem_cons_self x c)
    have htail := sublist_tail_dropWhile x c a h
    have hrec := ih ((a.dropWhile fun y => !(y == x)).tail)
      ((b.dropWhile fun y => !(y == x)).tail) htail
    simp only [diffFromLCS]
    rw [reconOld_append, reconOld_append, reconOld_delOpt, reconOld_insOpt,
      reconOld_cons]
    simp only [List.nil_append, if_neg (by decide : ¬ DiffOp.equal = DiffOp.insert)]
    rw [hrec]
    simpa using takeWhile_dropWhile_eq x a hmem

theorem reconNew_diffFromLCS [DecidableEq α] :
    ∀ (c a b : List α), List.Sublist c b → reconNew (diffFromLCS a b c) = b := by
  intro c
  induction c with
  | nil =>
    intro a b _
    simp only [diffFromLCS]
    rw [reconNew_append, reconNew_delOpt, reconNew_insOpt, List.nil_append]
  | cons x c ih =>
    intro a b h
    have hmem : x ∈ b := h.subset (List.mem_cons_self x c)
    have htail := sublist_tail_dropWhile x c b h
    have hrec := ih ((a.dropWhile fun y => !(y == x)).tail)
      ((b.dropWhile fun y => !(y == x)).tail) htail
    simp only [diffFromLCS]
    rw [reconNew_append, reconNew_append, reconNew_delOpt, reconNew_insOpt,
      reconNew_cons]
    simp only [List.nil_append, if_neg (by decide : ¬ DiffOp.equal = DiffOp.delete)]
    rw [hrec]
    simpa using takeWhile_dropWhile_eq x b hmem

/-- C1.  Line Differ round-trip: for all input strings `A`, `B`, the `all`
field of `generateHTMLDiff A B` is the line diff of `A` and `B`, and
concatenating the lines of its `equal` and `delete` segments in order
reconstructs `A` exactly, while the `equal` and `insert` lines reconstruct
`B` exactly. -/
theorem line_differ_round_trip (A B : String) :
    (generateHTMLDiff A B).all = diffLines A B ∧
    joinLines (reconOld (diffLines A B)) = A ∧
    joinLines (reconNew (diffLines A B)) = B := by
  refine ⟨rfl, ?_, ?_⟩
  · rw [diffLines, reconOld_diffFromLCS _ _ _ (lcs_sublist_left _ _),
      joinLines_splitLines]
  · rw [diffLines, reconNew_diffFromLCS _ _ _ (lcs_sublist_right _ _),
      joinLines_splitLines]

theorem prodFilledCount_cons (r : SideRow) (t : List SideRow) :
    prodFilledCount (r :: t) =
      (if r.prodType = ProdCellType.empty then 0 else 1) + prodFilledCount t := by
  by_cases h : r.prodType = ProdCellType.empty <;>
    simp [prodFilledCount, List.filter_cons, h, Nat.add_comm]

theorem devFilledCount_cons (r : SideRow) (t : List SideRow) :
    devFilledCount (r :: t) =
      (if r.devType = DevCellType.empty then 0 else 1) + devFilledCount t := by
  by_cases h : r.devType = DevCellType.empty <;>
    simp [devFilledCount, List.filter_cons, h, Nat.add_comm]

theorem equalRows_spec :
    ∀ (ls : List String) (p d : Nat),
      (equalRows p d ls).length = ls.length ∧
      (equalRows p d ls).filterMap SideRow.prodLineNum = List.range' p ls.length ∧
      (equalRows p d ls).filterMap SideRow.devLineNum = List.range' d ls.length ∧
      prodFilledCount (equalRows p d ls) = ls.length ∧
      devFilledCount (equalRows p d ls) = ls.length ∧
      ∀ r ∈ equalRows p d ls, rowNumsMatchTypes r := by
  intro ls
  induction ls with
  | nil => intro p d; simp [equalRows, prodFilledCount, devFilledCount]
  | cons l ls ih =>
    intro p d
    obtain ⟨h1, h2, h3, h4, h5, h6⟩ := ih (p + 1) (d + 1)
    refine ⟨by simp [equalRows, h1], ?_, ?_, ?_, ?_, ?_⟩
    · simp [equalRows, List.filterMap_cons, h2, h4, List.range'_succ]
    · simp [equalRows, List.filterMap_cons, h3, h5, List.range'_succ]
    · simp [equalRows, prodFilledCount_cons, h4, Nat.add_comm]
    · simp [equalRows, devFilledCount_cons, h5, Nat.add_comm]
    · intro r hr
      rcases List.mem_cons.mp hr with h | h
      · subst h
        constructor <;> simp [rowNumsMatchTypes]
      · exact h6 r h

theorem removedRows_spec :
    ∀ (ls : List String) (p : Nat),
      (removedRows p ls).length = ls.length ∧
      (removedRows p ls).filterMap SideRow.prodLineNum = List.range' p ls.length ∧
      (removedRows p ls).filterMap SideRow.devLineNum = [] ∧
      prodFilledCount (removedRows p ls) = ls.length ∧
      devFilledCount (removedRows p ls) = 0 ∧
      ∀ r ∈ removedRows p ls, rowNumsMatchTypes r := by
  intro ls
  induction ls with
  | nil => intro p; simp [removedRows, prodFilledCount, devFilledCount]
  | cons l ls ih =>
    intro p
    obtain ⟨h1, h2, h3, h4, h5, h6⟩ := ih (p + 1)
    refine ⟨by simp [removedRows, h1], ?_, ?_, ?_, ?_, ?_⟩
    · simp [removedRows, List.filterMap_cons, h2, List.range'_succ]
    · simp [removedRows, List.filterMap_cons, h3]
    · simp [removedRows, prodFilledCount_cons, h4, Nat.add_comm]
    · simp [removedRows, devFilledCount_cons, h5]
    · intro r hr
      rcases List.mem_cons.mp hr with h | h
      · subst h
        constructor <;> simp [rowNumsMatchTypes]
      · exact h6 r h

theorem addedRows_spec :
    ∀ (ls : List String) (d : Nat),
      (addedRows d ls).length = ls.length ∧
      (addedRows d ls).filterMap SideRow.prodLineNum = [] ∧
      (addedRows d ls).filterMap SideRow.devLineNum = List.range' d ls.length ∧
      prodFilledCount (addedRows d ls) = 0 ∧
      devFilledCount (addedRows d ls) = ls.length ∧
      ∀ r ∈ addedRows d ls, rowNumsMatchTypes r := by
  intro ls
  induction ls with
  | nil => intro d; simp [addedRows, prodFilledCount, devFilledCount]
  | cons l ls ih =>
    intro d
    obtain ⟨h1, h2, h3, h4, h5, h6⟩ := ih (d + 1)
    refine ⟨by simp [addedRows, h1], ?_, ?_, ?_, ?_, ?_⟩
    · simp [addedRows, List.filterMap_cons, h2]
    · simp [addedRows, List.filterMap_cons, h3, List.range'_succ]
    · simp [addedRows, prodFilledCount_cons, h4]
    · simp [addedRows, devFilledCount_cons, h5, Nat.add_comm]
    · intro r hr
      rcases List.mem_cons.mp hr with h | h
      · subst h
        constructor <;> simp [rowNumsMatchTypes]
      · exact h6 r h

theorem prodFilledCount_append (s t : List SideRow) :
    prodFilledCount (s ++ t) = prodFilledCount s + prodFilledCount t := by
  simp [prodFilledCount, List.filter_append]

theorem devFilledCount_append (s t : List SideRow) :
    devFilledCount (s ++ t) = devFilledCount s + devFilledCount t := by
  simp [devFilledCount, List.filter_append]

theorem alignSegs_spec :
    ∀ (segs : List (Seg String)) (p d : Nat),
      (alignSegs p d segs).length =
        (segs.map (fun s => (partFilteredLines s).length)).sum ∧
      (alignSegs p d segs).filterMap SideRow.prodLineNum =
        List.range' p (prodFilledCount (alignSegs p d segs)) ∧
      (alignSegs p d segs).filterMap SideRow.devLineNum =
        List.range' d (devFilledCount (alignSegs p d segs)) ∧
      ∀ r ∈ alignSegs p d segs, rowNumsMatchTypes r := by
  intro segs
  induction segs with
  | nil => intro p d; simp [alignSegs, prodFilledCount, devFilledCount]
  | cons seg rest ih =>
    intro p d
    cases hop : seg.op with
    | equal =>
      obtain ⟨e1, e2, e3, e4, e5, e6⟩ :=
        equalRows_spec (partFilteredLines seg) p d
      obtain ⟨r1, r2, r3, r4⟩ :=
        ih (p + (partFilteredLines seg).length) (d + (partFilteredLines seg).length)
      have hstep : alignSegs p d (seg :: rest) =
          equalRows p d (partFilteredLines seg) ++
            alignSegs (p + (partFilteredLines seg).length)
              (d + (partFilteredLines seg).length) rest := by
        simp [alignSegs, hop]
      refine ⟨?_, ?_, ?_, ?_⟩
      · simp [hstep, e1, r1]
      · simp only [hstep, List.filterMap_append, e2, r2,
          prodFilledCount_append, e4, List.range'_append_1]
        rw [Nat.add_comm]
      · simp only [hstep, List.filterMap_append, e3, r3,
          devFilledCount_append, e5, List.range'_append_1]
        rw [Nat.add_comm]
      · intro r hr
        rw [hstep] at hr
        rcases List.mem_append.mp hr with h | h
        · exact e6 r h
        · exact r4 r h
    | delete =>
      obtain ⟨e1, e2, e3, e4, e5, e6⟩ :=
        removedRows_spec (partFilteredLines seg) p
      obtain ⟨r1, r2, r3, r4⟩ := ih (p + (partFilteredLines seg).length) d
      have hstep : alignSegs p d (seg :: rest) =
          removedRows p (partFilteredLines seg) ++
            alignSegs (p + (partFilteredLines seg).length) d rest := by
        simp [alignSegs, hop]
      refine ⟨?_, ?_, ?_, ?_⟩
      · simp [hstep, e1, r1]
      · simp only [hstep, List.filterMap_append, e2, r2,
          prodFilledCount_append, e4, List.range'_append_1]
        rw [Nat.add_comm]
      · simp only [hstep, List.filterMap_append, e3, r3,
          devFilledCount_append, e5, List.nil_append, Nat.zero_add]
      · intro r hr
        rw [hstep] at hr
        rcases List.mem_append.mp hr with h | h
        · exact e6 r h
        · exact r4 r h
    | insert =>
      obtain ⟨e1, e2, e3, e4, e5, e6⟩ :=
        addedRows_spec (partFilteredLines seg) d
      obtain ⟨r1, r2, r3, r4⟩ := ih p (d + (partFilteredLines seg).length)
      have hstep : alignSegs p d (seg :: rest) =
          addedRows d (partFilteredLines seg) ++
            alignSegs p (d + (partFilteredLines seg).length) rest := by
        simp [alignSegs, hop]
      refine ⟨?_, ?_, ?_, ?_⟩
      · simp [hstep, e1, r1]
      · simp only [hstep, List.filterMap_append, e2, r2,
          prodFilledCount_append, e4, List.nil_append, Nat.zero_add]
      · simp only [hstep, List.filterMap_append, e3, r3,
          devFilledCount_append, e5, List.range'_append_1]
        rw [Nat.add_comm]
      · intro r hr
        rw [hstep] at hr
        rcases List.mem_append.mp hr with h | h
        · exact e6 r h
        · exact r4 r h

/-- C3 (counterexample).  The claim that the aligner emits one row per line
of each segment — blank/whitespace-only lines remaining part of the
aligned-row output and its line-number bookkeeping — is false: on the pair
of identical texts "a\n\nb" the single-line-diff segments cover 3 lines
("a", "", "b"), but the aligner filters the blank line before emitting
rows and produces only 2 aligned rows. -/
theorem side_by_side_blank_line_cex :
    (generateSideBySideDiff "a\n\nb" "a\n\nb").length = 2 ∧
    totalSegLines (diffLines "a\n\nb" "a\n\nb") = 3 := by
  decide

/-- C3 (amended).  Side-by-Side Aligner bookkeeping: the aligner emits one
row per non-blank line of each segment of the line diff —
blank/whitespace-only lines are excluded both from the added/removed
buckets exposed to the UI and from the aligned-row output and its
line-number bookkeeping — and each side's running line counter (starting
at 1) increments exactly on the rows where that side has content. -/
theorem side_by_side_bookkeeping (A B : String) :
    (generateSideBySideDiff A B).length =
      ((diffLines A B).map (fun s => (partFilteredLines s).length)).sum ∧
    (generateSideBySideDiff A B).filterMap SideRow.prodLineNum =
      List.range' 1 (prodFilledCount (generateSideBySideDiff A B)) ∧
    (generateSideBySideDiff A B).filterMap SideRow.devLineNum =
      List.range' 1 (devFilledCount (generateSideBySideDiff A B)) ∧
    (∀ r ∈ generateSideBySideDiff A B, rowNumsMatchTypes r) ∧
    (∀ l ∈ (generateHTMLDiff A B).added, jsTruthyTrim l = true) ∧
    (∀ l ∈ (generateHTMLDiff A B).removed, jsTruthyTrim l = true) := by
  obtain ⟨h1, h2, h3, h4⟩ := alignSegs_spec (diffLines A B) 1 1
  refine ⟨h1, h2, h3, h4, ?_, ?_⟩
  · intro l hl
    simp only [generateHTMLDiff, List.mem_flatMap, partFilteredLines] at hl
    obtain ⟨p, _, hlp⟩ := hl
    exact (List.mem_filter.mp hlp).2
  · intro l hl
    simp only [generateHTMLDiff, List.mem_flatMap, partFilteredLines] at hl
    obtain ⟨p, _, hlp⟩ := hl
    exact (List.mem_filter.mp hlp).2

/-- C2 (counterexample).  The claim that a file whose `content` is absent
on one side and present (non-empty) on the other is never flagged
different is false: `hasContentDifference` coerces an absent `content` to
the empty string with `|| ''`, so a dev file node with `content` absent
and a prod file node with non-empty content IS flagged different. -/
theorem content_flag_absent_cex :
    (c2DevNode.resource.bind StaticResource.content) = none ∧
    (c2ProdNode.resource.bind StaticResource.content) = some "console.log(1)" ∧
    hasContentDifference (some c2DevNode) (some c2ProdNode) = true := by
  refine ⟨rfl, rfl, by decide⟩

/-- C2 (amended).  Folder-tree content-difference flag: a pair of matched
nodes is flagged "different" iff both nodes are present, both are file
nodes, and their `content` strings — with an absent resource or absent
`content` coerced to the empty string — differ.  Absent content IS
treated as the empty string, so absent-vs-non-empty IS flagged and
absent-vs-empty (or absent-vs-absent) is not. -/
theorem content_flag_spec (d p : FolderNode) :
    (hasContentDifference (some d) (some p) = true ↔
      (d.ntype = NodeType.file ∧ p.ntype = NodeType.file ∧
        (d.resource.bind StaticResource.content).getD "" ≠
          (p.resource.bind StaticResource.content).getD "")) ∧
    hasContentDifference none (some p) = false ∧
    hasContentDifference (some d) none = false ∧
    hasContentDifference none none = false := by
  refine ⟨?_, rfl, rfl, rfl⟩
  by_cases hd : d.ntype = NodeType.file <;>
    by_cases hp : p.ntype = NodeType.file <;>
      simp [hasContentDifference, hd, hp, bne_iff_ne]

/-- C7.  Resource Reconciler partition: within a category's lists, the
dev-only and common buckets exactly partition the dev list (membership
characterized by presence of the normalized key in the prod map, mutual
exclusion, and a permutation accounting for multiplicity), and
symmetrically for the prod side. -/
theorem resource_partition (devItems prodItems : List StaticResource) :
    List.Perm (devOnlyItems devItems prodItems ++ commonItems devItems prodItems)
      devItems ∧
    (∀ x, x ∈ devOnlyItems devItems prodItems ↔
      x ∈ devItems ∧ mapHas resKey prodItems (resKey x) = false) ∧
    (∀ x, x ∈ commonItems devItems prodItems ↔
      x ∈ devItems ∧ mapHas resKey prodItems (resKey x) = true) ∧
    (∀ x, ¬(x ∈ devOnlyItems devItems prodItems ∧
      x ∈ commonItems devItems prodItems)) ∧
    List.Perm (prodOnlyItems devItems prodItems ++ commonItemsProd devItems prodItems)
      prodItems ∧
    (∀ x, x ∈ prodOnlyItems devItems prodItems ↔
      x ∈ prodItems ∧ mapHas resKey devItems (resKey x) = false) ∧
    (∀ x, x ∈ commonItemsProd devItems prodItems ↔
      x ∈ prodItems ∧ mapHas resKey devItems (resKey x) = true) ∧
    (∀ x, ¬(x ∈ prodOnlyItems devItems prodItems ∧
      x ∈ commonItemsProd devItems prodItems)) := by
  refine ⟨?_, ?_, ?_, ?_, ?_, ?_, ?_, ?_⟩
  · exact (List.perm_append_comm).trans
      (List.filter_append_perm (fun i => mapHas resKey prodItems (resKey i)) devItems)
  · intro x
    simp [devOnlyItems, List.mem_filter]
  · intro x
    simp [commonItems, List.mem_filter]
  · intro x
    rintro ⟨h1, h2⟩
    have e1 := (List.mem_filter.mp h1).2
    have e2 := (List.mem_filter.mp h2).2
    simp at e1
    rw [e1] at e2
    cases e2
  · exact (List.perm_append_comm).trans
      (List.filter_append_perm (fun i => mapHas resKey devItems (resKey i)) prodItems)
  · intro x
    simp [prodOnlyItems, List.mem_filter]
  · intro x
    simp [commonItemsProd, List.mem_filter]
  · intro x
    rintro ⟨h1, h2⟩
    have e1 := (List.mem_filter.mp h1).2
    have e2 := (List.mem_filter.mp h2).2
    simp at e1
    rw [e1] at e2
    cases e2

/-- Witness for C7 at concrete lists. -/
theorem resource_partition_witness :
    devA1 ∈ commonItems [devA1, devA2] [prodA] ∧
    badURLRes ∈ devOnlyItems [badURLRes] [prodA] :=
  ⟨((resource_partition [devA1, devA2] [prodA]).2.2.1 devA1).mpr
      ⟨by simp, by decide⟩,
   ((resource_partition [badURLRes] [prodA]).2.1 badURLRes).mpr
      ⟨by simp, by decide⟩⟩

/-- C4 (counterexample).  The claimed tie-break (first occurrence wins for
pairing; subsequent duplicates become additional onlyA entries) is false:
with two dev resources sharing the normalized key "/static/js/app.js" that
also matches a prod resource, BOTH dev duplicates land in `commonItems`,
none in `devOnlyItems`, and the side map pairing (`Map.get`) returns the
LAST occurrence, because the JS `Map` constructor keeps the last entry for
a duplicated key. -/
theorem duplicate_key_cex :
    resKey devA1 = resKey devA2 ∧ resKey devA1 = resKey prodA ∧
    devOnlyItems [devA1, devA2] [prodA] = [] ∧
    commonItems [devA1, devA2] [prodA] = [devA1, devA2] ∧
    mapGet resKey [devA1, devA2] (resKey prodA) = some devA2 := by
  decide

/-- C4 (amended).  Duplicate-key tie-break: when duplicate normalized keys
exist within one side's list, pairing lookups through that side's map
return the LAST occurrence (the JS `Map` keeps the last entry per key),
and duplicates are never demoted: every occurrence whose key matches the
other side is a common entry (and not an onlyA entry), and every
occurrence whose key has no match is an onlyA entry (and not a common
one). -/
theorem duplicate_key_tie_break :
    (∀ (key : StaticResource → String) (items : List StaticResource) (k : String),
      mapGet key items k = (items.filter (fun i => key i == k)).getLast?) ∧
    (∀ (devItems prodItems : List StaticResource) (x : StaticResource),
      x ∈ devItems → mapHas resKey prodItems (resKey x) = true →
        x ∈ commonItems devItems prodItems ∧
          x ∉ devOnlyItems devItems prodItems) ∧
    (∀ (devItems prodItems : List StaticResource) (x : StaticResource),
      x ∈ devItems → mapHas resKey prodItems (resKey x) = false →
        x ∈ devOnlyItems devItems prodItems ∧
          x ∉ commonItems devItems prodItems) := by
  refine ⟨?_, ?_, ?_⟩
  · intro key items k
    rw [mapGet, List.filter_getLast?]
  · intro devItems prodItems x hx hk
    constructor
    · exact List.mem_filter.mpr ⟨hx, hk⟩
    · intro hmem
      have := (List.mem_filter.mp hmem).2
      simp [hk] at this
  · intro devItems prodItems x hx hk
    constructor
    · exact List.mem_filter.mpr ⟨hx, by simp [hk]⟩
    · intro hmem
      have := (List.mem_filter.mp hmem).2
      simp [hk] at this

/-- Witness for C4 at a concrete duplicated key. -/
theorem duplicate_key_tie_break_witness :
    mapGet resKey [devA1, devA2] "/static/js/app.js" =
      ([devA1, devA2].filter (fun i => resKey i == "/static/js/app.js")).getLast? ∧
    (devA2 ∈ commonItems [devA1, devA2] [prodA] ∧
      devA2 ∉ devOnlyItems [devA1, devA2] [prodA]) :=
  ⟨duplicate_key_tie_break.1 resKey [devA1, devA2] "/static/js/app.js",
   duplicate_key_tie_break.2.1 [devA1, devA2] [prodA] devA2 (by simp) (by decide)⟩

theorem buildStep_skip (acc : FolderNode) (r : StaticResource)
    (h : treeKeep r = false) : buildStep acc r = acc := by
  cases hp : parseURL r.url with
  | none => simp [buildStep, hp]
  | some u =>
    rw [treeKeep, hp] at h
    simp only [Bool.not_eq_false'] at h
    simp [buildStep, hp, h]

theorem buildStep_skip_check : buildStep rootNode badURLRes = rootNode :=
  buildStep_skip rootNode badURLRes rfl

theorem foldl_buildStep_filter :
    ∀ (l : List StaticResource) (acc : FolderNode),
      List.foldl buildStep acc l = List.foldl buildStep acc (l.filter treeKeep) := by
  intro l
  induction l with
  | nil => intro acc; rfl
  | cons r rest ih =>
    intro acc
    cases hk : treeKeep r with
    | true => simp [List.filter_cons, hk, List.foldl_cons, ih]
    | false => simp [List.filter_cons, hk, List.foldl_cons, ih, buildStep_skip acc r hk]

/-- C5 (counterexample).  The claim is false on two points for the
Folder-Tree Builder: a resource whose URL fails to parse IS dropped from
tree construction (the `catch` block skips it, so no file node is
created), and the reconciler's fallback key is not the literal raw URL
string (the fallback strips protocol/host, query and fragment). -/
theorem unparseable_url_cex :
    parseURL badURLRes.url = none ∧
    (buildFolderTree [badURLRes]).children = some [] ∧
    getNormalizedPath badURLRes.url ≠ badURLRes.url := by
  refine ⟨rfl, rfl, by decide⟩

/-- C5 (amended).  Unparseable-URL fallback: in the Resource Reconciler a
resource whose URL fails to parse is excluded from parsed-URL keying and
falls back to a key derived from its literal raw string (protocol/host,
query and fragment stripped, `/static` marker applied), and it still lands
in exactly one of onlyA / common; in the Folder-Tree Builder, however, a
resource whose URL fails to parse (or whose path has a `wps` segment) is
skipped entirely and yields no file node — the built tree equals the tree
of the kept resources only. -/
theorem unparseable_url_fallback :
    (∀ url, parseURL url = none →
      getNormalizedPath url = getNormalizedPathFallback url ∧
        getPathWithParams url = getPathWithParamsFallback url) ∧
    (∀ (devItems prodItems : List StaticResource) (x : StaticResource),
      x ∈ devItems →
        (x ∈ devOnlyItems devItems prodItems ∨
          x ∈ commonItems devItems prodItems)) ∧
    (∀ resources, buildFolderTree resources =
      buildFolderTree (resources.filter treeKeep)) := by
  refine ⟨?_, ?_, ?_⟩
  · intro url h
    constructor
    · rw [getNormalizedPath, h]
    · rw [getPathWithParams, h]
  · intro devItems prodItems x hx
    cases hk : mapHas resKey prodItems (resKey x) with
    | true => exact Or.inr (List.mem_filter.mpr ⟨hx, hk⟩)
    | false => exact Or.inl (List.mem_filter.mpr ⟨hx, by simp [hk]⟩)
  · intro resources
    exact foldl_buildStep_filter resources rootNode

/-- Witness for C5 at a concrete unparseable URL. -/
theorem unparseable_url_fallback_witness :
    getNormalizedPath "notaurl#frag" = getNormalizedPathFallback "notaurl#frag" ∧
    (badURLRes ∈ devOnlyItems [badURLRes] [prodA] ∨
      badURLRes ∈ commonItems [badURLRes] [prodA]) :=
  ⟨(unparseable_url_fallback.1 "notaurl#frag" rfl).1,
   unparseable_url_fallback.2.1 [badURLRes] [prodA] badURLRes (by simp)⟩

/-- C8.  Normalized-key properties: the key derivation is a deterministic
function of the URL string; for parseable URLs the normalized key depends
only on the pathname (so URLs differing only in scheme/host, query or
fragment get the same normalized key); the comparison key depends only on
pathname and query (fragment still excluded); and two URLs differing only
in query string can have different comparison keys while sharing the same
normalized key. -/
theorem normalized_key_properties :
    (∀ s t : String, s = t → getNormalizedPath s = getNormalizedPath t) ∧
    (∀ (s1 s2 : String) (u1 u2 : URLParts),
      parseURL s1 = some u1 → parseURL s2 = some u2 →
        u1.pathname = u2.pathname →
          getNormalizedPath s1 = getNormalizedPath s2) ∧
    (∀ (s1 s2 : String) (u1 u2 : URLParts),
      parseURL s1 = some u1 → parseURL s2 = some u2 →
        u1.pathname = u2.pathname → u1.search = u2.search →
          getPathWithParams s1 = getPathWithParams s2) ∧
    (getNormalizedPath "https://h.com/static/js/app.js?v=1" =
        getNormalizedPath "https://h.com/static/js/app.js?v=2" ∧
      getPathWithParams "https://h.com/static/js/app.js?v=1" ≠
        getPathWithParams "https://h.com/static/js/app.js?v=2") := by
  refine ⟨?_, ?_, ?_, by decide⟩
  · intro s t h
    rw [h]
  · intro s1 s2 u1 u2 h1 h2 hpath
    rw [getNormalizedPath, h1, getNormalizedPath, h2]
    show staticTrunc u1.pathname = staticTrunc u2.pathname
    rw [hpath]
  · intro s1 s2 u1 u2 h1 h2 hpath hsearch
    rw [getPathWithParams, h1, getPathWithParams, h2]
    show (if u1.search ≠ "" then staticTrunc u1.pathname ++ u1.search
        else staticTrunc u1.pathname) =
      (if u2.search ≠ "" then staticTrunc u2.pathname ++ u2.search
        else staticTrunc u2.pathname)
    rw [hpath, hsearch]

/-- Witness for C8: two URLs differing in scheme, host, query and fragment
share a normalized key. -/
theorem normalized_key_properties_witness :
    getNormalizedPath "https://dev.site/a.js?x=1" =
      getNormalizedPath "http://prod.other/a.js?y=2#f" :=
  normalized_key_properties.2.1 "https://dev.site/a.js?x=1"
    "http://prod.other/a.js?y=2#f"
    { scheme := "https", host := "dev.site", pathname := "/a.js"
      search := "?x=1", fragment := "" }
    { scheme := "http", host := "prod.other", pathname := "/a.js"
      search := "?y=2", fragment := "#f" }
    (by decide) (by decide) rfl

theorem commonTags_eq_zip :
    ∀ (A B : List TagDetail), commonTags A B = A.zip B := by
  intro A
  induction A with
  | nil =>
    intro B
    rw [commonTags]
    rw [List.filterMap_eq_nil_iff.mpr]
    · rfl
    · intro i _
      simp
  | cons a as ih =>
    intro B
    cases B with
    | nil =>
      rw [commonTags]
      rw [List.filterMap_eq_nil_iff.mpr]
      · rfl
      · intro i _
        cases h : (a :: as)[i]? <;> simp
    | cons b bs =>
      rw [commonTags]
      have hmax : max (a :: as).length (b :: bs).length =
          (max as.length bs.length) + 1 := by
        simp [List.length_cons, Nat.succ_max_succ]
      rw [hmax, List.range_succ_eq_map, List.filterMap_cons, List.filterMap_map]
      simp only [List.getElem?_cons_zero]
      show (a, b) :: _ = (a, b) :: as.zip bs
      rw [← ih bs, commonTags]
      congr 1
      apply List.filterMap_congr
      intro i _
      simp [Function.comp, List.getElem?_cons_succ]

/-- C6.  Tag-Detail Reconciler: `onlyA` together with the records of A
whose canonical key occurs in B exactly partitions A (membership
characterization, mutual exclusion, and a permutation accounting for
multiplicity), symmetrically for B; and the positional `paired` list is
the positional zip of A and B — its length is always
`min(len(A), len(B))`, pairing index i of A with index i of B regardless
of key equality. -/
theorem tag_reconciler_spec (A B : List TagDetail) :
    List.Perm (devOnlyTags A B ++ matchedTags A B) A ∧
    (∀ x, x ∈ devOnlyTags A B ↔
      x ∈ A ∧ (B.any (fun p => jsonKey p == jsonKey x)) = false) ∧
    (∀ x, x ∈ matchedTags A B ↔
      x ∈ A ∧ (B.any (fun p => jsonKey p == jsonKey x)) = true) ∧
    (∀ x, ¬(x ∈ devOnlyTags A B ∧ x ∈ matchedTags A B)) ∧
    List.Perm (prodOnlyTags A B ++ matchedTagsProd A B) B ∧
    (∀ x, x ∈ prodOnlyTags A B ↔
      x ∈ B ∧ (A.any (fun p => jsonKey p == jsonKey x)) = false) ∧
    commonTags A B = A.zip B ∧
    (commonTags A B).length = min A.length B.length := by
  refine ⟨?_, ?_, ?_, ?_, ?_, ?_, commonTags_eq_zip A B, ?_⟩
  · exact (List.perm_append_comm).trans
      (List.filter_append_perm (fun d => B.any (fun p => jsonKey p == jsonKey d)) A)
  · intro x
    simp [devOnlyTags, List.mem_filter]
  · intro x
    simp [matchedTags, List.mem_filter]
  · intro x
    rintro ⟨h1, h2⟩
    have e1 := (List.mem_filter.mp h1).2
    have e2 := (List.mem_filter.mp h2).2
    rw [Bool.not_eq_true'] at e1
    rw [e1] at e2
    cases e2
  · exact (List.perm_append_comm).trans
      (List.filter_append_perm (fun d => A.any (fun p => jsonKey p == jsonKey d)) B)
  · intro x
    simp [prodOnlyTags, List.mem_filter]
  · rw [commonTags_eq_zip A B, List.length_zip]

/-- C9.  Alert gating on unset thresholds: whatever the input values and
the accumulated alert list, a check whose governing threshold field is
absent emits no alert record and returns the alert list unchanged. -/
theorem alert_gating_unset (th : ComparisonThreshold) (a b c : ℚ)
    (alerts : List AlertRule) :
    (th.htmlSizeDiff = none → checkHTMLSize th a b alerts = alerts) ∧
    (th.scriptCountDiff = none → checkScriptCount th a b alerts = alerts) ∧
    (th.imageCountDiff = none → checkImageCount th a b alerts = alerts) ∧
    (th.performanceScoreDiff = none → checkPerformanceScore th a b alerts = alerts) ∧
    (th.seoScoreDiff = none → checkSEOScore th a b alerts = alerts) ∧
    (th.brokenLinksMax = none → checkBrokenLinks th c alerts = alerts) ∧
    (th.lighthousePerformanceMin = none →
      checkLighthousePerformance th c alerts = alerts) := by
  refine ⟨?_, ?_, ?_, ?_, ?_, ?_, ?_⟩ <;> intro h
  · rw [checkHTMLSize, h]
  · rw [checkScriptCount, h]
  · rw [checkImageCount, h]
  · rw [checkPerformanceScore, h]
  · rw [checkSEOScore, h]
  · rw [checkBrokenLinks, h]
  · rw [checkLighthousePerformance, h]

/-- Witness for C9: with an empty threshold configuration every check
leaves an empty alert list empty whatever the deltas. -/
theorem alert_gating_unset_witness :
    checkHTMLSize {} 1 1000000 [] = [] ∧
    checkScriptCount {} 1 1000000 [] = [] ∧
    checkImageCount {} 1 1000000 [] = [] ∧
    checkPerformanceScore {} 1000000 1 [] = [] ∧
    checkSEOScore {} 1000000 1 [] = [] ∧
    checkBrokenLinks {} 1000000 [] = [] ∧
    checkLighthousePerformance {} 0 [] = [] := by
  have h := alert_gating_unset {} 1 1000000 1000000 []
  have h2 := alert_gating_unset {} 1000000 1 1000000 []
  have h3 := alert_gating_unset {} 1 1000000 0 []
  exact ⟨h.1 rfl, h.2.1 rfl, h.2.2.1 rfl, h2.2.2.2.1 rfl, h2.2.2.2.2.1 rfl,
    h.2.2.2.2.2.1 rfl, h3.2.2.2.2.2.2 rfl⟩

/-- C10.  Zero-threshold edge case: a threshold set to 0 disables
`checkHTMLSize`, `checkScriptCount`, `checkImageCount`,
`checkPerformanceScore`, `checkSEOScore` and `checkLighthousePerformance`
exactly like an absent field (the `!` guard treats 0 as falsy), whereas
`checkBrokenLinks` with `brokenLinksMax = 0` stays active: any broken
count greater than 0 appends an error alert; and `DEFAULT_THRESHOLDS`
sets `brokenLinksMax` to 0. -/
theorem zero_threshold_behavior (th : ComparisonThreshold) (a b c : ℚ)
    (alerts : List AlertRule) :
    (th.htmlSizeDiff = some 0 → checkHTMLSize th a b alerts = alerts) ∧
    (th.scriptCountDiff = some 0 → checkScriptCount th a b alerts = alerts) ∧
    (th.imageCountDiff = some 0 → checkImageCount th a b alerts = alerts) ∧
    (th.performanceScoreDiff = some 0 →
      checkPerformanceScore th a b alerts = alerts) ∧
    (th.seoScoreDiff = some 0 → checkSEOScore th a b alerts = alerts) ∧
    (th.lighthousePerformanceMin = some 0 →
      checkLighthousePerformance th c alerts = alerts) ∧
    (th.brokenLinksMax = some 0 → 0 < c →
      checkBrokenLinks th c alerts =
        alerts ++
          [{ type := AlertType.error
             category := "Links"
             message := "Found " ++ toString c ++
               " broken link(s) (max allowed: " ++ toString (0 : ℚ) ++ ")"
             threshold := some 0
             actualValue := some c }]) ∧
    (th.brokenLinksMax = some 0 → ¬(0 < c) →
      checkBrokenLinks th c alerts = alerts) ∧
    DEFAULT_THRESHOLDS.brokenLinksMax = some 0 := by
  refine ⟨?_, ?_, ?_, ?_, ?_, ?_, ?_, ?_, rfl⟩
  · intro h
    rw [checkHTMLSize, h]
    simp
  · intro h
    rw [checkScriptCount, h]
    simp
  · intro h
    rw [checkImageCount, h]
    simp
  · intro h
    rw [checkPerformanceScore, h]
    simp
  · intro h
    rw [checkSEOScore, h]
    simp
  · intro h
    rw [checkLighthousePerformance, h]
    simp
  · intro h hc
    simp [checkBrokenLinks, h, hc]
  · intro h hc
    simp [checkBrokenLinks, h, hc]

/-- Witness for C10 at concrete inputs: with every threshold 0, huge
deltas produce no alert from the six falsy-guarded checks, while a single
broken link with `brokenLinksMax = 0` produces an error alert. -/
theorem zero_threshold_behavior_witness :
    checkHTMLSize zeroThresholds 1 1000000 [] = [] ∧
    checkScriptCount zeroThresholds 1 1000000 [] = [] ∧
    checkImageCount zeroThresholds 1 1000000 [] = [] ∧
    checkPerformanceScore zeroThresholds 1000000 1 [] = [] ∧
    checkSEOScore zeroThresholds 1000000 1 [] = [] ∧
    checkLighthousePerformance zeroThresholds 1 [] = [] ∧
    checkBrokenLinks zeroThresholds 3 [] =
      [{ type := AlertType.error
         category := "Links"
         message := "Found " ++ toString (3 : ℚ) ++
           " broken link(s) (max allowed: " ++ toString (0 : ℚ) ++ ")"
         threshold := some 0
         actualValue := some 3 }] := by
  have h := zero_threshold_behavior zeroThresholds 1 1000000 3 []
  have h2 := zero_threshold_behavior zeroThresholds 1000000 1 3 []
  have h3 := zero_threshold_behavior zeroThresholds 1000000 1 1 []
  exact ⟨h.1 rfl, h.2.1 rfl, h.2.2.1 rfl, h2.2.2.2.1 rfl, h2.2.2.2.2.1 rfl,
    h3.2.2.2.2.2.1 rfl, h.2.2.2.2.2.2.1 rfl (by decide)⟩

/-- Witness for the aligner bookkeeping at the spec's concrete scenario
"a\nb\nc" vs "a\nx\nc": 4 aligned rows, and the first row is
well-numbered. -/
theorem side_by_side_bookkeeping_witness :
    (generateSideBySideDiff "a\nb\nc" "a\nx\nc").length = 4 ∧
    rowNumsMatchTypes
      ⟨some 1, "a", ProdCellType.normal, some 1, "a", DevCellType.normal⟩ :=
  ⟨((side_by_side_bookkeeping "a\nb\nc" "a\nx\nc").1).trans (by decide),
   (side_by_side_bookkeeping "a\nb\nc" "a\nx\nc").2.2.2.1
     ⟨some 1, "a", ProdCellType.normal, some 1, "a", DevCellType.normal⟩
     (by decide)⟩

/-- Witness for the content-difference flag at concrete file nodes. -/
theorem content_flag_spec_witness :
    hasContentDifference (some c2DevNode) (some c2ProdNode) = true :=
  (content_flag_spec c2DevNode c2ProdNode).1.mpr ⟨rfl, rfl, by decide⟩

/-- Witness for the tag reconciler at concrete one-element lists. -/
theorem tag_reconciler_spec_witness :
    tagT1 ∈ devOnlyTags [tagT1] [tagT2] ∧
    commonTags [tagT1] [tagT2] = [(tagT1, tagT2)] :=
  ⟨((tag_reconciler_spec [tagT1] [tagT2]).2.1 tagT1).mpr ⟨by simp, by decide⟩,
   ((tag_reconciler_spec [tagT1] [tagT2]).2.2.2.2.2.2.1).trans (by decide)⟩

end ToolsCheckDiff
